import Mathlib

/-!
Verification development for the `cloud` repository: a FastAPI backend
(`src/cloud/backend/app.py`) orchestrating a Hadoop streaming word-count job,
with the streaming mapper (`src/cloud/mapreduce/mapper.py`) and reducer
(`src/cloud/mapreduce/reducer.py`).

The Python sources are shallowly embedded below: pure per-line processing as
Lean functions on `String` / `List`, the HTTP handlers as functions of an
explicit `World` of external command outcomes.  Python string primitives
(`str.strip`, `str.split`, `str.lower`, `int(...)`) are implemented as
structurally recursive functions over the character list of a `String`, so
every definition evaluates inside the kernel.
-/

namespace Cloud

/-! ## Python string primitives -/

/-- Split a character list at every character satisfying `p`, keeping empty
pieces: the semantics of Python `s.split(sep)` for a one-character `sep`
(with `p` testing for `sep`).  `""` yields `[""]`. -/
def splitChars (p : Char → Bool) : List Char → List (List Char)
  | [] => [[]]
  | c :: rest =>
    let r := splitChars p rest
    if p c then [] :: r
    else
      match r with
      | g :: gs => (c :: g) :: gs
      | [] => [[c]]

/-- Python `s.split(sep)` for a one-character separator. -/
def pySplitOn (s : String) (sep : Char) : List String :=
  (splitChars (fun c => c == sep) s.data).map (fun l => ⟨l⟩)

/-- Python `s.split()` (no separator): split on whitespace runs, dropping
empty pieces. -/
def pySplitWs (s : String) : List String :=
  ((splitChars (fun c => c.isWhitespace) s.data).filter
    (fun l => !l.isEmpty)).map (fun l => ⟨l⟩)

/-- Strip leading and trailing whitespace from a character list. -/
def stripChars (l : List Char) : List Char :=
  (((l.dropWhile Char.isWhitespace).reverse.dropWhile
    Char.isWhitespace)).reverse

/-- Python `s.strip()`. -/
def pyStrip (s : String) : String := ⟨stripChars s.data⟩

/-- Python `s.lower()` (ASCII fragment, matching the inputs the claims
exercise). -/
def pyLower (s : String) : String := ⟨s.data.map Char.toLower⟩

/-- Value of a non-empty all-digit character list, `none` otherwise. -/
def digitsToNat (l : List Char) : Option Nat :=
  if l.isEmpty then none
  else
    l.foldl
      (fun acc c =>
        match acc with
        | some n => if c.isDigit then some (n * 10 + (c.toNat - 48)) else none
        | none => none)
      (some 0)

/-- Python `int(s)` for base-10 string input: surrounding whitespace is
ignored, an optional single sign precedes one or more decimal digits; any
other shape raises `ValueError`, modelled as `none`. -/
def pyInt? (s : String) : Option Int :=
  match stripChars s.data with
  | '-' :: ds => (digitsToNat ds).map (fun n => -(n : Int))
  | '+' :: ds => (digitsToNat ds).map (fun n => (n : Int))
  | ds => (digitsToNat ds).map (fun n => (n : Int))

/-! ## Mapper (`src/cloud/mapreduce/mapper.py`) -/

/-- A word character in the sense of the regex `\w` (ASCII fragment):
letters, digits, or underscore. -/
def isWordChar (c : Char) : Bool := c.isAlphanum || c == '_'

/-- One character of `re.sub(r"[^\w\s]", " ", text)`: characters that are
neither word characters nor whitespace become a space. -/
def normChar (c : Char) : Char :=
  if isWordChar c || c.isWhitespace then c else ' '

/-- The token list produced by `mapper(text)`: lowercase, replace
non-word/non-space characters by spaces, split on whitespace
(Python `str.split()` drops empty pieces). -/
def mapperTokens (line : String) : List String :=
  pySplitWs ⟨(pyLower line).data.map normChar⟩

/-- Embedding of `mapper(text)`: each non-empty token paired with count 1.
(The `if word:` guard in the body is subsumed: `str.split()` never yields
empty tokens.) -/
def mapperLine (line : String) : List (String × Int) :=
  (mapperTokens line).map (fun w => (w, (1 : Int)))

/-- The stdin loop of the mapper: strip each line, skip empty lines, apply
`mapper` to the rest and concatenate the emitted pairs. -/
def mapperMain (lines : List String) : List (String × Int) :=
  (lines.map (fun line =>
    let s := pyStrip line
    if s == "" then [] else mapperLine s)).flatten

/-! ## Reducer (`src/cloud/mapreduce/reducer.py`) -/

/-- Python-dict model: association list with insertion-ordered keys.
`dictSet d k v` is `d[k] = v`: replace the value at the first entry with
key `k`, or append `(k, v)` if the key is absent. -/
def dictSet : List (String × Int) → String → Int → List (String × Int)
  | [], k, v => [(k, v)]
  | p :: rest, k, v =>
    if p.1 = k then (k, v) :: rest else p :: dictSet rest k v

/-- Embedding of `d.get(k, dflt)` on the association-list dict model. -/
def dictGet (d : List (String × Int)) (k : String) (dflt : Int) : Int :=
  match d.find? (fun p => p.1 == k) with
  | some p => p.2
  | none => dflt

/-- The in-process `reducer(word_count_list)` function of `reducer.py`:
`counts[word] = counts.get(word, 0) + count` over the list. -/
def reducerDict (l : List (String × Int)) : List (String × Int) :=
  l.foldl (fun counts p => dictSet counts p.1 (dictGet counts p.1 0 + p.2)) []

/-- The streaming loop of `reducer.py` on already-parsed `(word, count)`
pairs. The first argument models the `current_word`/`current_count` state
(`None` initially); reaching the end of input flushes the pending group. -/
def streamLoop : Option (String × Int) → List (String × Int) → List (String × Int)
  | none, [] => []
  | some wc, [] => [wc]
  | none, p :: rest => streamLoop (some p) rest
  | some (cw, cc), (w, c) :: rest =>
    if w = cw then streamLoop (some (cw, cc + c)) rest
    else (cw, cc) :: streamLoop (some (w, c)) rest

/-- The streaming aggregation of the reducer started from the `None` state. -/
def streamReduce (l : List (String × Int)) : List (String × Int) :=
  streamLoop none l

/-- The per-line parse of the reducer: `line.strip()`, then
`word, count = line.split('\t'); count = int(count)`; any failure
(`except: continue`) yields `none`. -/
def parseLine (line : String) : Option (String × Int) :=
  match pySplitOn (pyStrip line) '\t' with
  | [w, c] =>
    match pyInt? c with
    | some n => some (w, n)
    | none => none
  | _ => none

/-- The stdin loop of the reducer over raw lines: malformed lines are skipped
(`continue`), parsed pairs feed the streaming state machine. -/
def reducerLoop : Option (String × Int) → List String → List (String × Int)
  | none, [] => []
  | some wc, [] => [wc]
  | cur, line :: rest =>
    match parseLine line with
    | none => reducerLoop cur rest
    | some (w, c) =>
      match cur with
      | none => reducerLoop (some (w, c)) rest
      | some (cw, cc) =>
        if w = cw then reducerLoop (some (cw, cc + c)) rest
        else (cw, cc) :: reducerLoop (some (w, c)) rest

/-- The whole reducer program on a list of stdin lines. -/
def reducerMain (lines : List String) : List (String × Int) :=
  reducerLoop none lines

/-- Total count a pair list assigns to one word: the sum of the counts of
the entries whose key is `w`. -/
def aggregate (l : List (String × Int)) (w : String) : Int :=
  ((l.filter (fun p => p.1 == w)).map Prod.snd).sum

/-- Keys of `l` sorted (weakly) ascending in the lexicographic order on
their character lists: equal keys are contiguous. -/
def sortedByKey (l : List (String × Int)) : Prop :=
  l.Pairwise (fun a b => a.1.data ≤ b.1.data)

/-! ## Backend (`src/cloud/backend/app.py`) -/

/-- JSON-ish values appearing in response bodies / `HTTPException` details
(the app only ever puts strings and integers there). -/
inductive JVal where
  | str (s : String)
  | int (n : Int)
deriving DecidableEq

/-- The Python exceptions the `wordcount` / `status` handlers raise or
catch.  `calledProcess` records the command (rendered), the return code and
the captured `stdout` / `stderr` (`none` when `subprocess.run` was called
without `capture_output=True`, so the attribute is `None`). -/
inductive PyExc where
  | httpExc (code : Nat) (detail : List (String × JVal))
  | calledProcess (cmd : String) (rc : Int) (stdout : Option String)
      (stderr : Option String)
  | other (name : String) (msg : String)
deriving DecidableEq

/-- Rendering of a detail dict inside `str(HTTPException(...))`; an
approximation of Python `str(dict)` (quoting omitted), enough for the
claims, which never inspect message text. -/
def dictRepr (d : List (String × JVal)) : String :=
  let fieldRepr : String × JVal → String := fun p =>
    p.1 ++ ": " ++ (match p.2 with | .str s => s | .int n => toString n)
  "\x7b" ++ String.intercalate ", " (d.map fieldRepr) ++ "\x7d"

/-- Python `type(e).__name__`. -/
def excName : PyExc → String
  | .httpExc _ _ => "HTTPException"
  | .calledProcess _ _ _ _ => "CalledProcessError"
  | .other n _ => n

/-- Python `str(e)` for the exceptions above (Starlette renders
`HTTPException` as the status code, a colon and the rendered detail dict;
`CalledProcessError` as a command-and-exit-status sentence). -/
def excStr : PyExc → String
  | .httpExc code d => toString code ++ ": " ++ dictRepr d
  | .calledProcess cmd rc _ _ =>
    "Command " ++ cmd ++ " returned non-zero exit status " ++ toString rc ++ "."
  | .other _ msg => msg

/-- Outcome of one `subprocess.run` call that completed: return code and
captured output streams. -/
structure Cmd where
  rc : Int
  stdout : String
  stderr : String
deriving DecidableEq

/-- The external effects `POST /api/wordcount` depends on, one field per
call site in the handler.  `mkdirInput`, `chmodMapper`, `chmodReducer`,
`rmInput` and `rmOutput` are issued without `check=True`, so the handler
never looks at their outcome.  `writeOk = false` models the local
`open`/`write` raising `OSError`; `removeOk = false` models `os.remove`
raising `OSError`. -/
structure World where
  jobId : String
  writeOk : Bool
  writeErrMsg : String
  dockerCp : Cmd
  mkdirInput : Cmd
  hdfsPut : Cmd
  chmodMapper : Cmd
  chmodReducer : Cmd
  hadoopJar : Cmd
  hdfsCat : Cmd
  removeOk : Bool
  removeErrMsg : String
  rmInput : Cmd
  rmOutput : Cmd
deriving DecidableEq

/-- Which side effects the handler performed before returning.  Field
order: `jobIdGenerated`, `localWritten`, `dockerCpRun`, `mkdirRun`,
`hdfsPutRun`, `hadoopRun`, `catRun`, `localRemoveAttempted`,
`rmInputAttempted`, `rmOutputAttempted`. -/
structure Events where
  jobIdGenerated : Bool
  localWritten : Bool
  dockerCpRun : Bool
  mkdirRun : Bool
  hdfsPutRun : Bool
  hadoopRun : Bool
  catRun : Bool
  localRemoveAttempted : Bool
  rmInputAttempted : Bool
  rmOutputAttempted : Bool
deriving DecidableEq

/-- Events after the pipeline progressed through `stage` sequential steps
(1 job id, 2 local write, 3 docker cp, 4 mkdir, 5 hdfs put, 6 hadoop jar,
7 hdfs cat), with the three cleanup-attempt flags given explicitly. -/
def mkEvents (stage : Nat) (localRm rmIn rmOut : Bool) : Events :=
  ⟨decide (1 ≤ stage), decide (2 ≤ stage), decide (3 ≤ stage),
   decide (4 ≤ stage), decide (5 ≤ stage), decide (6 ≤ stage),
   decide (7 ≤ stage), localRm, rmIn, rmOut⟩

/-- Result of a request to `POST /api/wordcount`: either the success JSON
body, or the HTTP error produced from a raised `HTTPException`. -/
inductive WcResult where
  | success (jobId : String) (wordCounts : List (String × Int))
      (total : Int) (unique : Nat)
  | error (code : Nat) (detail : List (String × JVal))
deriving DecidableEq

/-- The two `except` clauses of `wordcount`:
`except subprocess.CalledProcessError` produces an `error` field holding
`Hadoop error: ` followed by `e.stderr or e.stdout or str(e)` plus a
`returncode` field, and the blanket `except Exception` produces an `error`
field holding `str(e)` plus a `type` field — both as HTTP 500. -/
def wcErrorOf (e : PyExc) : WcResult :=
  match e with
  | .calledProcess _ rc stdoutOpt stderrOpt =>
    let firstTruthy : Option String → Option String := fun o =>
      match o with
      | some s => if s == "" then none else some s
      | none => none
    let msg :=
      match firstTruthy stderrOpt with
      | some s => s
      | none =>
        match firstTruthy stdoutOpt with
        | some s => s
        | none => excStr e
    .error 500 [("error", .str ("Hadoop error: " ++ msg)), ("returncode", .int rc)]
  | e => .error 500 [("error", .str (excStr e)), ("type", .str (excName e))]

/-- Rendered argv of the `docker cp` staging call (message text only). -/
def dockerCpCmd : String := "[docker, cp, local_tmp, namenode:/tmp/input_file]"

/-- Rendered argv of the `hdfs dfs -put` staging call. -/
def hdfsPutCmd : String :=
  "[docker, exec, namenode, hdfs, dfs, -put, -f, /tmp/input_file, /input/]"

/-- Rendered argv of the `hadoop jar` streaming invocation. -/
def hadoopJarCmd : String := "[docker, exec, namenode, hadoop, jar, ...]"

/-- Rendered argv of the `hdfs dfs -cat` output read. -/
def hdfsCatCmd : String :=
  "[docker, exec, namenode, hdfs, dfs, -cat, /output/output_dir/part-00000]"

/-- The output-parsing loop of `wordcount` over
`result.stdout.strip().split('\n')`: empty lines are skipped, lines not
splitting into exactly two tab-separated fields are skipped, and
`word_counts[word] = int(count)`; a non-integer count raises `ValueError`,
modelled as `.error` carrying the offending field. -/
def collectLines : List String → List (String × Int) →
    Except String (List (String × Int))
  | [], d => .ok d
  | line :: rest, d =>
    if line == "" then collectLines rest d
    else
      match pySplitOn line '\t' with
      | [w, c] =>
        match pyInt? c with
        | some n => collectLines rest (dictSet d w n)
        | none => .error c
      | _ => collectLines rest d

/-- Parsing of the whole `hdfs dfs -cat` stdout into `word_counts`. -/
def collectOutput (stdout : String) : Except String (List (String × Int)) :=
  collectLines (pySplitOn (pyStrip stdout) '\n') []

/-- The tail of the `wordcount` handler once `hdfs dfs -cat` succeeded:
build `word_counts` (a `ValueError` on a bad count reaches the blanket
`except`), then `os.remove`, the two HDFS `rm`s and the success payload. -/
def finishRun (w : World) :
    Except String (List (String × Int)) → WcResult × Events
  | .error bad =>
    (wcErrorOf (.other "ValueError"
        ("invalid literal for int() with base 10: " ++ bad)),
      mkEvents 7 false false false)
  | .ok d =>
    if w.removeOk = false then
      -- `os.remove` raised: the two HDFS `rm`s are never reached
      (wcErrorOf (.other "OSError" w.removeErrMsg), mkEvents 7 true false false)
    else
      (.success w.jobId d ((d.map Prod.snd).sum) d.length,
        mkEvents 7 true true true)

/-- The `POST /api/wordcount` handler.  Mirrors the `try` body of
`wordcount` in `app.py` top to bottom; each early exit corresponds to an
exception reaching the `except` clauses.  Outcomes of the unchecked
commands (`mkdir -p`, the two `chmod`s, the two `rm`s) are ignored by the
code and hence never examined here. -/
def wordcountRun (w : World) (text : String) : WcResult × Events :=
  if text = "" then
    -- `raise HTTPException(400, ...)` is caught by the blanket
    -- `except Exception` of the same handler and re-raised as a 500
    (wcErrorOf (.httpExc 400 [("error", .str "No text provided")]),
      mkEvents 0 false false false)
  else if w.writeOk = false then
    (wcErrorOf (.other "OSError" w.writeErrMsg), mkEvents 1 false false false)
  else if w.dockerCp.rc ≠ 0 then
    -- `check=True`, no capture: `e.stderr` and `e.stdout` are `None`
    (wcErrorOf (.calledProcess dockerCpCmd w.dockerCp.rc none none),
      mkEvents 3 false false false)
  else if w.hdfsPut.rc ≠ 0 then
    -- the `mkdir -p` in between has no `check=True`: its result is ignored
    (wcErrorOf (.calledProcess hdfsPutCmd w.hdfsPut.rc none none),
      mkEvents 5 false false false)
  else if w.hadoopJar.rc ≠ 0 then
    -- `check=True` and `capture_output=True`: both streams captured
    (wcErrorOf (.calledProcess hadoopJarCmd w.hadoopJar.rc
        (some w.hadoopJar.stdout) (some w.hadoopJar.stderr)),
      mkEvents 6 false false false)
  else if w.hdfsCat.rc ≠ 0 then
    (wcErrorOf (.calledProcess hdfsCatCmd w.hdfsCat.rc
        (some w.hdfsCat.stdout) (some w.hdfsCat.stderr)),
      mkEvents 7 false false false)
  else
    finishRun w (collectOutput w.hdfsCat.stdout)

/-- Outcome of the `/api/status` probe command: it completed, or
`subprocess.run` itself raised (e.g. `TimeoutExpired` after 10 s). -/
inductive ProbeResult where
  | completed (c : Cmd)
  | raised (e : PyExc)
deriving DecidableEq

/-- Result of a request to `GET /api/status`. -/
inductive StatusResult where
  | ok (body : List (String × JVal))
  | error (code : Nat) (detail : List (String × JVal))
deriving DecidableEq

/-- The `GET /api/status` handler.  The `HTTPException` raised for a
non-zero return code (which carries `stderr`) is caught by the
`except Exception` clause of the same handler and re-raised as a 500 whose
detail holds only `status` and `message`. -/
def statusRun (probe : ProbeResult) : StatusResult :=
  match probe with
  | .completed c =>
    if c.rc = 0 then
      .ok [("status", .str "running"), ("message", .str "Cluster is healthy")]
    else
      let inner : PyExc := .httpExc 500
        [("status", .str "error"), ("message", .str "Cluster not responding"),
         ("stderr", .str c.stderr)]
      .error 500 [("status", .str "error"), ("message", .str (excStr inner))]
  | .raised e =>
    .error 500 [("status", .str "error"), ("message", .str (excStr e))]

/-- The detail/body list of a `StatusResult`. -/
def statusDetail : StatusResult → List (String × JVal)
  | .ok b => b
  | .error _ d => d

/-- All checked pipeline steps succeeded and the output parsed: the
condition under which `wordcount` reaches its final section. -/
def PipelineOk (w : World) (text : String) : Prop :=
  text ≠ "" ∧ w.writeOk = true ∧ w.dockerCp.rc = 0 ∧ w.hdfsPut.rc = 0
  ∧ w.hadoopJar.rc = 0 ∧ w.hdfsCat.rc = 0
  ∧ ∃ d, collectOutput w.hdfsCat.stdout = .ok d

/-- A world where every external command succeeds and the part-file holds
`hi 1` / `there 2`. -/
def sampleWorld : World :=
  ⟨"job00001", true, "", ⟨0, "", ""⟩, ⟨0, "", ""⟩, ⟨0, "", ""⟩, ⟨0, "", ""⟩,
   ⟨0, "", ""⟩, ⟨0, "", ""⟩, ⟨0, "hi\t1\nthere\t2", ""⟩, true, "",
   ⟨0, "", ""⟩, ⟨0, "", ""⟩⟩

/-- A world where the `hadoop jar` invocation fails (exit 1, stderr
`job failed`) and everything else succeeds. -/
def c1FailWorld : World :=
  ⟨"job00001", true, "", ⟨0, "", ""⟩, ⟨0, "", ""⟩, ⟨0, "", ""⟩, ⟨0, "", ""⟩,
   ⟨0, "", ""⟩, ⟨1, "", "job failed"⟩, ⟨0, "", ""⟩, true, "",
   ⟨0, "", ""⟩, ⟨0, "", ""⟩⟩

/-- A world where every command succeeds and the part-file holds one
well-formed entry `hi 1`. -/
def c5OkWorld : World :=
  ⟨"job00001", true, "", ⟨0, "", ""⟩, ⟨0, "", ""⟩, ⟨0, "", ""⟩, ⟨0, "", ""⟩,
   ⟨0, "", ""⟩, ⟨0, "", ""⟩, ⟨0, "hi\t1", ""⟩, true, "",
   ⟨0, "", ""⟩, ⟨0, "", ""⟩⟩

/-- A world identical to `c5OkWorld` save that the single part-file line
carries a non-integer count field (`a z`). -/
def c7BadCountWorld : World :=
  ⟨"job00001", true, "", ⟨0, "", ""⟩, ⟨0, "", ""⟩, ⟨0, "", ""⟩, ⟨0, "", ""⟩,
   ⟨0, "", ""⟩, ⟨0, "", ""⟩, ⟨0, "a\tz", ""⟩, true, "",
   ⟨0, "", ""⟩, ⟨0, "", ""⟩⟩

/-- A world where the `hdfs dfs -mkdir -p` staging step fails (exit 1)
while every checked command succeeds. -/
def c8MkdirFailWorld : World :=
  ⟨"job00001", true, "", ⟨0, "", ""⟩, ⟨1, "", "mkdir failed"⟩, ⟨0, "", ""⟩,
   ⟨0, "", ""⟩, ⟨0, "", ""⟩, ⟨0, "", ""⟩, ⟨0, "hi\t1", ""⟩, true, "",
   ⟨0, "", ""⟩, ⟨0, "", ""⟩⟩

/-- A world where the `hdfs dfs -put` staging step fails (exit 1). -/
def c8PutFailWorld : World :=
  ⟨"job00001", true, "", ⟨0, "", ""⟩, ⟨0, "", ""⟩, ⟨1, "", ""⟩, ⟨0, "", ""⟩,
   ⟨0, "", ""⟩, ⟨0, "", ""⟩, ⟨0, "", ""⟩, true, "",
   ⟨0, "", ""⟩, ⟨0, "", ""⟩⟩

example : mapperTokens "Cat, cat!" = ["cat", "cat"] := by decide
example : mapperMain ["b a b"] = [("b", 1), ("a", 1), ("b", 1)] := by decide
example : reducerDict [("b", 1), ("a", 1), ("b", 1)] = [("b", 2), ("a", 1)] := by decide
example : streamReduce [("a", 1), ("b", 1), ("b", 1)] = [("a", 1), ("b", 2)] := by decide
example : parseLine "a\t3" = some ("a", 3) := by decide
example : parseLine "a\t-3" = some ("a", -3) := by decide
example : parseLine "oops" = none := by decide
example : parseLine "a\tx" = none := by decide
example : reducerMain ["a\t1", "zz", "a\t2", "b\t5"] = [("a", 3), ("b", 5)] := by decide

example : collectOutput "a\t2\nb\t3\n" = .ok [("a", 2), ("b", 3)] := rfl
example : collectOutput "a\t2\ncat" = .ok [("a", 2)] := rfl
example : collectOutput "a\tx\nb\t3" = .error "x" := rfl
example : collectOutput "" = .ok [] := rfl
example : collectOutput "cat\t2\ncat\t5" = .ok [("cat", 5)] := rfl

example :
    wordcountRun sampleWorld "hi there there" =
      (.success "job00001" [("hi", 1), ("there", 2)] 3 2,
        mkEvents 7 true true true) := by decide

example :
    (wordcountRun sampleWorld "").1 =
      .error 500 [("error", .str "400: \x7berror: No text provided\x7d"),
        ("type", .str "HTTPException")] := by decide

example :
    statusRun (.completed ⟨0, "r", ""⟩) =
      .ok [("status", .str "running"), ("message", .str "Cluster is healthy")] := by
  decide

example :
    (statusDetail (statusRun (.completed ⟨1, "", "boom"⟩))).map Prod.fst =
      ["status", "message"] := by decide

/-! ## Dictionary and aggregate lemmas -/

theorem dictGet_nil (k : String) (dflt : Int) : dictGet [] k dflt = dflt := rfl

theorem dictGet_cons (p : String × Int) (rest : List (String × Int))
    (k : String) (dflt : Int) :
    dictGet (p :: rest) k dflt = if p.1 = k then p.2 else dictGet rest k dflt := by
  by_cases h : p.1 = k
  · simp [dictGet, List.find?, h]
  · have hb : (p.1 == k) = false := by simp [h]
    simp [dictGet, List.find?, h, hb]

theorem dictGet_dictSet (d : List (String × Int)) (k x : String) (v : Int) :
    dictGet (dictSet d k v) x 0 = if x = k then v else dictGet d x 0 := by
  induction d with
  | nil =>
    rw [show dictSet [] k v = [(k, v)] from rfl, dictGet_cons, dictGet_nil]
    by_cases h : x = k
    · rw [if_pos h, if_pos h.symm]
    · rw [if_neg h, if_neg (fun h' : k = x => h h'.symm)]
  | cons p rest ih =>
    rw [show dictSet (p :: rest) k v =
        (if p.1 = k then (k, v) :: rest else p :: dictSet rest k v) from rfl]
    by_cases hp : p.1 = k
    · rw [if_pos hp, dictGet_cons, dictGet_cons]
      by_cases hx : x = k
      · rw [if_pos hx, if_pos hx.symm]
      · rw [if_neg hx, if_neg (fun h : k = x => hx h.symm),
          if_neg (fun h : p.1 = x => hx (hp.symm.trans h).symm)]
    · rw [if_neg hp, dictGet_cons, dictGet_cons, ih]
      by_cases hx : x = k
      · rw [if_neg (fun h : p.1 = x => hp (h.trans hx)), if_pos hx, if_pos hx]
      · rw [if_neg hx, if_neg hx]

theorem keys_dictSet (d : List (String × Int)) (k : String) (v : Int) :
    (dictSet d k v).map Prod.fst =
      if k ∈ d.map Prod.fst then d.map Prod.fst
      else d.map Prod.fst ++ [k] := by
  induction d with
  | nil => simp [dictSet]
  | cons p rest ih =>
    by_cases hp : p.1 = k
    · simp [dictSet, hp]
    · have hk : ¬(k = p.1) := fun h => hp h.symm
      by_cases hm : k ∈ rest.map Prod.fst
      · simp [dictSet, hp, ih, hm, hk]
      · simp [dictSet, hp, ih, hm, hk]

theorem nodupKeys_dictSet (d : List (String × Int)) (k : String) (v : Int)
    (h : (d.map Prod.fst).Nodup) : ((dictSet d k v).map Prod.fst).Nodup := by
  rw [keys_dictSet]
  by_cases hm : k ∈ d.map Prod.fst
  · simpa [hm] using h
  · simp only [hm, if_neg, if_false]
    simp [List.nodup_append, h, hm]

theorem aggregate_nil (v : String) : aggregate [] v = 0 := rfl

theorem aggregate_cons (p : String × Int) (l : List (String × Int)) (v : String) :
    aggregate (p :: l) v = (if p.1 = v then p.2 else 0) + aggregate l v := by
  by_cases h : p.1 = v <;> simp [aggregate, h]

theorem aggregate_eq_zero (l : List (String × Int)) (v : String)
    (h : ∀ p ∈ l, p.1 ≠ v) : aggregate l v = 0 := by
  induction l with
  | nil => rfl
  | cons p rest ih =>
    rw [aggregate_cons, if_neg (h p (List.mem_cons_self p rest)),
      ih (fun q hq => h q (List.mem_cons_of_mem p hq)), add_zero]

theorem aggregate_perm {l l' : List (String × Int)} (h : l.Perm l')
    (v : String) : aggregate l v = aggregate l' v := by
  unfold aggregate
  exact ((h.filter (fun p => p.1 == v)).map Prod.snd).sum_eq

theorem dictGet_reducerDict_aux (l : List (String × Int)) :
    ∀ (d : List (String × Int)) (v : String),
      dictGet (l.foldl
        (fun counts p => dictSet counts p.1 (dictGet counts p.1 0 + p.2)) d) v 0
      = dictGet d v 0 + aggregate l v := by
  induction l with
  | nil => intro d v; simp [aggregate_nil]
  | cons p rest ih =>
    intro d v
    rw [List.foldl_cons, ih, dictGet_dictSet, aggregate_cons]
    by_cases h : v = p.1
    · rw [if_pos h, if_pos h.symm, h]
      ring
    · rw [if_neg h, if_neg (fun h' : p.1 = v => h h'.symm), zero_add]

/-- Looking up any word in the in-process dict reducer yields the total
count that word has in the input pair list. -/
theorem dictGet_reducerDict (l : List (String × Int)) (v : String) :
    dictGet (reducerDict l) v 0 = aggregate l v := by
  unfold reducerDict
  rw [dictGet_reducerDict_aux, dictGet_nil, zero_add]

theorem dictGet_of_mem_nodup (d : List (String × Int)) (p : String × Int)
    (hnd : (d.map Prod.fst).Nodup) (hp : p ∈ d) : dictGet d p.1 0 = p.2 := by
  induction d with
  | nil => cases hp
  | cons q rest ih =>
    rw [List.map_cons, List.nodup_cons] at hnd
    rcases List.mem_cons.1 hp with h | h
    · subst h
      rw [dictGet_cons, if_pos rfl]
    · rw [dictGet_cons]
      have hne : q.1 ≠ p.1 := by
        intro he
        exact hnd.1 (he ▸ List.mem_map_of_mem Prod.fst h)
      rw [if_neg hne]
      exact ih hnd.2 h

/-! ## Streaming reducer correctness -/

theorem string_data_inj : ∀ {a b : String}, a.data = b.data → a = b := by
  intro a b h
  cases a
  cases b
  exact congrArg String.mk h

/-- Invariant of the streaming loop of the reducer on sorted input with pending
group `(cw, cc)`: the output has strictly increasing keys all `≥ cw`, its
lookup combines the pending count with the input totals, and its key set is
`cw` plus the input keys. -/
theorem streamLoop_spec (l : List (String × Int)) :
    ∀ (cw : String) (cc : Int), sortedByKey l → (∀ p ∈ l, cw.data ≤ p.1.data) →
      (streamLoop (some (cw, cc)) l).Pairwise (fun a b => a.1.data < b.1.data)
      ∧ (∀ p ∈ streamLoop (some (cw, cc)) l, cw.data ≤ p.1.data)
      ∧ (∀ v, dictGet (streamLoop (some (cw, cc)) l) v 0 =
          (if v = cw then cc else 0) + aggregate l v)
      ∧ (∀ v, v ∈ (streamLoop (some (cw, cc)) l).map Prod.fst ↔
          (v = cw ∨ v ∈ l.map Prod.fst)) := by
  induction l with
  | nil =>
    intro cw cc _ _
    refine ⟨List.pairwise_singleton _ _, ?_, ?_, ?_⟩
    · intro p hp
      rw [show streamLoop (some (cw, cc)) [] = [(cw, cc)] from rfl,
        List.mem_singleton] at hp
      exact hp ▸ le_refl cw.data
    · intro v
      rw [show streamLoop (some (cw, cc)) [] = [(cw, cc)] from rfl,
        dictGet_cons, dictGet_nil, aggregate_nil, add_zero]
      by_cases h : v = cw
      · rw [if_pos h, if_pos h.symm]
      · rw [if_neg h, if_neg (fun h' : cw = v => h h'.symm)]
    · intro v
      rw [show (streamLoop (some (cw, cc)) []).map Prod.fst = [cw] from rfl]
      simp
  | cons q rest ih =>
    intro cw cc hsort hlb
    rw [sortedByKey, List.pairwise_cons] at hsort
    have hq := hlb q (List.mem_cons_self q rest)
    have hlbr : ∀ p ∈ rest, cw.data ≤ p.1.data :=
      fun p hp => hlb p (List.mem_cons_of_mem q hp)
    rw [show streamLoop (some (cw, cc)) (q :: rest) =
        (if q.1 = cw then streamLoop (some (cw, cc + q.2)) rest
         else (cw, cc) :: streamLoop (some (q.1, q.2)) rest) from rfl]
    by_cases hqc : q.1 = cw
    · rw [if_pos hqc]
      obtain ⟨pw, lb, lookup, memkeys⟩ := ih cw (cc + q.2) hsort.2
        (fun p hp => hqc ▸ hsort.1 p hp)
      refine ⟨pw, lb, ?_, ?_⟩
      · intro v
        rw [lookup v, aggregate_cons]
        by_cases hv : v = cw
        · rw [if_pos hv, if_pos hv, if_pos (hqc.trans hv.symm)]
          ring
        · rw [if_neg hv, if_neg hv,
            if_neg (fun h : q.1 = v => hv (h.symm.trans hqc)), zero_add,
            zero_add]
      · intro v
        rw [memkeys v, List.map_cons, List.mem_cons]
        constructor
        · rintro (h | h)
          · exact Or.inl h
          · exact Or.inr (Or.inr h)
        · rintro (h | h | h)
          · exact Or.inl h
          · exact Or.inl (h.trans hqc)
          · exact Or.inr h
    · rw [if_neg hqc]
      have hlt : cw.data < q.1.data :=
        lt_of_le_of_ne hq (fun h => hqc (string_data_inj h).symm)
      obtain ⟨pw, lb, lookup, memkeys⟩ := ih q.1 q.2 hsort.2 hsort.1
      refine ⟨?_, ?_, ?_, ?_⟩
      · rw [List.pairwise_cons]
        exact ⟨fun p hp => lt_of_lt_of_le hlt (lb p hp), pw⟩
      · intro p hp
        rcases List.mem_cons.1 hp with h | h
        · rw [h]
        · exact le_trans (le_of_lt hlt) (lb p h)
      · intro v
        rw [dictGet_cons, aggregate_cons]
        by_cases hv : v = cw
        · rw [if_pos hv.symm, if_pos hv,
            if_neg (fun h : q.1 = v => hqc (h.trans hv)),
            aggregate_eq_zero rest v (by
              intro p hp he
              have hpl := lt_of_lt_of_le hlt (hsort.1 p hp)
              rw [he, hv] at hpl
              exact lt_irrefl _ hpl),
            zero_add, add_zero]
        · rw [if_neg (fun h : cw = v => hv h.symm), if_neg hv, zero_add,
            lookup v]
          by_cases hvq : v = q.1
          · rw [if_pos hvq, if_pos hvq.symm]
          · rw [if_neg hvq, if_neg (fun h : q.1 = v => hvq h.symm), zero_add]
      · intro v
        rw [List.map_cons, List.mem_cons, memkeys v, List.map_cons,
          List.mem_cons]

/-- On key-sorted input, the streaming pass of the reducer agrees pointwise
with direct aggregation, has pairwise-distinct output keys, assigns every
output entry the total count of its word, and emits exactly the words of
the input. -/
theorem streamReduce_sorted_spec (l : List (String × Int))
    (hsort : sortedByKey l) :
    (∀ v, dictGet (streamReduce l) v 0 = aggregate l v)
    ∧ ((streamReduce l).map Prod.fst).Nodup
    ∧ (∀ p ∈ streamReduce l, p.2 = aggregate l p.1)
    ∧ (∀ v, v ∈ (streamReduce l).map Prod.fst ↔ v ∈ l.map Prod.fst) := by
  match l with
  | [] =>
    refine ⟨fun v => rfl, List.nodup_nil, ?_, fun v => Iff.rfl⟩
    intro p hp
    cases hp
  | q :: rest =>
    rw [sortedByKey, List.pairwise_cons] at hsort
    obtain ⟨pw, _, lookup, memkeys⟩ :=
      streamLoop_spec rest q.1 q.2 hsort.2 hsort.1
    have hred : streamReduce (q :: rest) = streamLoop (some (q.1, q.2)) rest := by
      rw [streamReduce, show streamLoop none (q :: rest) =
        streamLoop (some (q.1, q.2)) rest from rfl]
    have hlook : ∀ v, dictGet (streamReduce (q :: rest)) v 0 =
        aggregate (q :: rest) v := by
      intro v
      rw [hred, lookup v, aggregate_cons]
      by_cases hv : v = q.1
      · rw [if_pos hv, if_pos hv.symm]
      · rw [if_neg hv, if_neg (fun h : q.1 = v => hv h.symm)]
    have hnd : ((streamReduce (q :: rest)).map Prod.fst).Nodup := by
      rw [hred]
      exact (pw.map Prod.fst (fun a b h => h)).imp
        (fun h he => absurd (congrArg String.data he) (ne_of_lt h))
    refine ⟨hlook, hnd, ?_, ?_⟩
    · intro p hp
      have := dictGet_of_mem_nodup (streamReduce (q :: rest)) p hnd hp
      rw [hlook p.1] at this
      exact this.symm
    · intro v
      rw [hred, memkeys v, List.map_cons, List.mem_cons]

/-- The stdin loop of the reducer is the streaming pass over the pairs of the
lines that parse; skipped lines leave the state untouched. -/
theorem reducerLoop_eq_streamLoop (lines : List String) :
    ∀ cur, reducerLoop cur lines = streamLoop cur (lines.filterMap parseLine) := by
  induction lines with
  | nil =>
    intro cur
    cases cur <;> rfl
  | cons line rest ih =>
    intro cur
    rw [List.filterMap_cons]
    cases hp : parseLine line with
    | none =>
      cases cur <;> simp [reducerLoop, hp, ih]
    | some wc =>
      obtain ⟨w, c⟩ := wc
      cases cur with
      | none => simp [reducerLoop, streamLoop, hp, ih]
      | some cwcc =>
        obtain ⟨cw, cc⟩ := cwcc
        by_cases hw : w = cw
        · simp [reducerLoop, streamLoop, hp, hw, ih]
        · simp [reducerLoop, streamLoop, hp, hw, ih]

/-! ## Output collector lemmas -/

theorem collectLines_append (xs : List String) :
    ∀ (ys : List String) (d : List (String × Int)),
      collectLines (xs ++ ys) d =
        (match collectLines xs d with
         | .ok d' => collectLines ys d'
         | .error e => .error e) := by
  induction xs with
  | nil =>
    intro ys d
    rfl
  | cons line rest ih =>
    intro ys d
    rw [List.cons_append]
    by_cases h0 : line = ""
    · simp [collectLines, h0, ih]
    · cases hsp : pySplitOn line '\t' with
      | nil => simp [collectLines, h0, hsp, ih]
      | cons a t =>
        cases t with
        | nil => simp [collectLines, h0, hsp, ih]
        | cons b t2 =>
          cases t2 with
          | nil =>
            cases hint : pyInt? b with
            | none => simp [collectLines, h0, hsp, hint]
            | some n => simp [collectLines, h0, hsp, hint, ih]
          | cons e t3 => simp [collectLines, h0, hsp, ih]

theorem collect_nodupKeys (lines : List String) :
    ∀ (d d' : List (String × Int)), (d.map Prod.fst).Nodup →
      collectLines lines d = .ok d' → (d'.map Prod.fst).Nodup := by
  induction lines with
  | nil =>
    intro d d' hnd h
    cases h
    exact hnd
  | cons line rest ih =>
    intro d d' hnd h
    by_cases h0 : line = ""
    · exact ih d d' hnd (by simpa [collectLines, h0] using h)
    · cases hsp : pySplitOn line '\t' with
      | nil => exact ih d d' hnd (by simpa [collectLines, h0, hsp] using h)
      | cons a t =>
        cases t with
        | nil => exact ih d d' hnd (by simpa [collectLines, h0, hsp] using h)
        | cons b t2 =>
          cases t2 with
          | nil =>
            cases hint : pyInt? b with
            | none =>
              rw [show collectLines (line :: rest) d = .error b from by
                simp [collectLines, h0, hsp, hint]] at h
              cases h
            | some n =>
              exact ih (dictSet d a n) d' (nodupKeys_dictSet d a n hnd)
                (by simpa [collectLines, h0, hsp, hint] using h)
          | cons e t3 =>
            exact ih d d' hnd (by simpa [collectLines, h0, hsp] using h)

/-! ## Claims -/

/-- Claim C3: feeding the `(token, 1)` pairs emitted by the mapper, sorted
by key, through the streaming reducer yields the same word-to-count
aggregate as directly counting the mapped tokens in-process (the dict-based
`reducer`); on the sorted input the stream emits each distinct word exactly
once, carrying the total count of that word. -/
theorem c3_mapper_reducer_roundtrip (lines : List String)
    (l : List (String × Int)) (hperm : l.Perm (mapperMain lines))
    (hsort : sortedByKey l) :
    (∀ v, dictGet (streamReduce l) v 0 =
      dictGet (reducerDict (mapperMain lines)) v 0)
    ∧ ((streamReduce l).map Prod.fst).Nodup
    ∧ (∀ p ∈ streamReduce l, p.2 = aggregate l p.1)
    ∧ (∀ v, v ∈ (streamReduce l).map Prod.fst ↔ v ∈ l.map Prod.fst) := by
  obtain ⟨hlook, hnd, hval, hmem⟩ := streamReduce_sorted_spec l hsort
  refine ⟨?_, hnd, hval, hmem⟩
  intro v
  rw [hlook v, dictGet_reducerDict, aggregate_perm hperm]

theorem c3_witness :
    (∀ v, dictGet (streamReduce (mapperMain ["a b b"])) v 0 =
      dictGet (reducerDict (mapperMain ["a b b"])) v 0)
    ∧ ((streamReduce (mapperMain ["a b b"])).map Prod.fst).Nodup
    ∧ (∀ p ∈ streamReduce (mapperMain ["a b b"]),
        p.2 = aggregate (mapperMain ["a b b"]) p.1)
    ∧ (∀ v, v ∈ (streamReduce (mapperMain ["a b b"])).map Prod.fst ↔
        v ∈ (mapperMain ["a b b"]).map Prod.fst) :=
  c3_mapper_reducer_roundtrip ["a b b"] (mapperMain ["a b b"])
    (List.Perm.refl _) (by unfold sortedByKey; decide)

/-- Claim C4: the mapper lowercases its line, replaces every character that is
neither a word character nor whitespace by a space, splits on whitespace,
and emits each non-empty token with count 1; tokenization is case- and
punctuation-insensitive: `"Cat, cat!"` aggregates to `cat = 2`. -/
theorem c4_mapper_tokenization :
    (∀ line, mapperLine line =
      (pySplitWs ⟨(pyLower line).data.map normChar⟩).map (fun w => (w, (1 : Int))))
    ∧ (∀ line p, p ∈ mapperLine line → p.2 = 1 ∧ p.1 ≠ "")
    ∧ mapperTokens "Cat, cat!" = ["cat", "cat"]
    ∧ reducerDict (mapperLine "Cat, cat!") = [("cat", 2)] := by
  refine ⟨fun line => rfl, ?_, by decide, by decide⟩
  intro line p hp
  rw [mapperLine, List.mem_map] at hp
  obtain ⟨w, hw, rfl⟩ := hp
  refine ⟨rfl, ?_⟩
  rw [mapperTokens, pySplitWs, List.mem_map] at hw
  obtain ⟨lc, hlc, rfl⟩ := hw
  have hne := (List.mem_filter.1 hlc).2
  intro hcon
  have hl : lc = ([] : List Char) := congrArg String.data hcon
  rw [hl] at hne
  exact Bool.noConfusion hne

theorem c4_witness :
    ((("cat" : String), (1 : Int)).2 = 1 ∧ (("cat" : String), (1 : Int)).1 ≠ "") :=
  c4_mapper_tokenization.2.1 "Cat, cat!" ("cat", 1) (by decide)

/-- Claim C6: a reducer input line that does not parse into a `(word, integer
count)` pair under a single tab is skipped without aborting — removing it
leaves the whole aggregation unchanged — and in particular a line with no
tab character never parses. -/
theorem c6_reducer_skips_malformed :
    (∀ (xs ys : List String) (m : String), parseLine m = none →
      reducerMain (xs ++ m :: ys) = reducerMain (xs ++ ys))
    ∧ (∀ line, (pySplitOn (pyStrip line) '\t').length = 1 →
      parseLine line = none) := by
  constructor
  · intro xs ys m hm
    rw [reducerMain, reducerMain, reducerLoop_eq_streamLoop,
      reducerLoop_eq_streamLoop, List.filterMap_append, List.filterMap_append,
      List.filterMap_cons, hm]
  · intro line h
    rw [parseLine]
    cases hsp : pySplitOn (pyStrip line) '\t' with
    | nil => rfl
    | cons a t =>
      cases t with
      | nil => rfl
      | cons b t2 =>
        rw [hsp] at h
        simp at h

theorem c6_witness :
    (reducerMain (["a\t1"] ++ "oops" :: ["b\t2"]) =
      reducerMain (["a\t1"] ++ ["b\t2"]))
    ∧ parseLine "no tab here" = none :=
  ⟨c6_reducer_skips_malformed.1 ["a\t1"] ["b\t2"] "oops" (by decide),
   c6_reducer_skips_malformed.2 "no tab here" (by decide)⟩

theorem wcErrorOf_ne_success (e : PyExc) (jid : String)
    (d : List (String × Int)) (t : Int) (u : Nat) :
    wcErrorOf e ≠ .success jid d t u := by
  cases e <;> simp [wcErrorOf]

/-- Claim C7: the output collector discards any line that does not split on a tab
into exactly two fields; a line whose second field is not a decimal integer
makes the whole collection step fail, and no successful (partial) result is
ever returned from such a run. -/
theorem c7_collector_error_handling :
    (∀ (xs ys : List String) (line : String) (d : List (String × Int)),
      (pySplitOn line '\t').length ≠ 2 →
      collectLines (xs ++ line :: ys) d = collectLines (xs ++ ys) d)
    ∧ (∀ (line w s : String) (ys : List String) (d : List (String × Int)),
      pySplitOn line '\t' = [w, s] → pyInt? s = none →
      collectLines (line :: ys) d = .error s)
    ∧ (∀ (wld : World) (text bad : String),
      collectOutput wld.hdfsCat.stdout = .error bad →
      ∀ (jid : String) (d : List (String × Int)) (t : Int) (u : Nat),
        (wordcountRun wld text).1 ≠ .success jid d t u) := by
  have hskip : ∀ (line : String) (zs : List String) (d : List (String × Int)),
      (pySplitOn line '\t').length ≠ 2 →
      collectLines (line :: zs) d = collectLines zs d := by
    intro line zs d h
    by_cases h0 : line = ""
    · simp [collectLines, h0]
    · cases hsp : pySplitOn line '\t' with
      | nil => simp [collectLines, h0, hsp]
      | cons a t =>
        cases t with
        | nil => simp [collectLines, h0, hsp]
        | cons b t2 =>
          cases t2 with
          | nil =>
            rw [hsp] at h
            simp at h
          | cons e t3 => simp [collectLines, h0, hsp]
  refine ⟨?_, ?_, ?_⟩
  · intro xs ys line d h
    rw [collectLines_append, collectLines_append]
    cases hxs : collectLines xs d with
    | error e => rfl
    | ok d' => exact hskip line ys d' h
  · intro line w s ys d hsp hint
    have h0 : line ≠ "" := by
      intro he
      rw [he, show pySplitOn "" '\t' = [""] from rfl] at hsp
      simp at hsp
    simp [collectLines, h0, hsp, hint]
  · intro wld text bad hbad jid d t u
    unfold wordcountRun
    repeat' split
    all_goals intro hcon
    all_goals simp_all [wcErrorOf, finishRun]

theorem c7_witness :
    (collectLines (["a\t1"] ++ "x\ty\tz" :: ["b\t2"]) [] =
      collectLines (["a\t1"] ++ ["b\t2"]) [])
    ∧ collectLines ("a\tz" :: ["b\t2"]) [] = .error "z"
    ∧ (wordcountRun c7BadCountWorld "hi").1 ≠ .success "job00001" [] 0 0 :=
  ⟨c7_collector_error_handling.1 ["a\t1"] ["b\t2"] "x\ty\tz" [] (by decide),
   c7_collector_error_handling.2.1 "a\tz" "a" "z" ["b\t2"] [] (by decide) rfl,
   c7_collector_error_handling.2.2 c7BadCountWorld "hi" "z" rfl "job00001" [] 0 0⟩

/-- Claim C10: when the collected part-file has several lines for the same word,
`word_counts` maps that word to the count of the last such line — a later
well-formed line for a word overwrites whatever earlier lines produced, and
the concrete duplicate file `cat 2 / cat 5` collects to `cat = 5`. -/
theorem c10_duplicate_keys_last_wins :
    (∀ (xs : List String) (d : List (String × Int)) (w s : String) (n : Int),
      collectLines xs [] = .ok d →
      pySplitOn (w ++ "\t" ++ s) '\t' = [w, s] →
      pyInt? s = some n →
      collectLines (xs ++ [w ++ "\t" ++ s]) [] = .ok (dictSet d w n)
      ∧ dictGet (dictSet d w n) w 0 = n)
    ∧ collectOutput "cat\t2\ncat\t5" = .ok [("cat", 5)] := by
  constructor
  · intro xs d w s n hxs hsp hint
    constructor
    · rw [collectLines_append, hxs]
      have h0 : (w ++ "\t" ++ s) ≠ "" := by
        intro he
        rw [he, show pySplitOn "" '\t' = [""] from rfl] at hsp
        simp at hsp
      simp [collectLines, h0, hsp, hint]
    · rw [dictGet_dictSet, if_pos rfl]
  · rfl

theorem c10_witness :
    (collectLines (["cat\t2"] ++ ["cat" ++ "\t" ++ "5"]) [] =
      .ok (dictSet [("cat", 2)] "cat" 5)
    ∧ dictGet (dictSet [("cat", 2)] "cat" 5) "cat" 0 = 5) :=
  c10_duplicate_keys_last_wins.1 ["cat\t2"] [("cat", 2)] "cat" "5" 5 rfl rfl rfl

/-- Claim C2: for the empty input text the handler generates no job id and issues
no staging command, but the `HTTPException(400)` it raises is caught by its
own blanket `except Exception` clause, so the caller receives HTTP 500 (with
the 400 payload flattened into the message), not HTTP 400. -/
theorem c2_empty_text_behavior (w : World) :
    wordcountRun w "" =
      (.error 500
        [("error", .str "400: \x7berror: No text provided\x7d"),
         ("type", .str "HTTPException")],
       mkEvents 0 false false false)
    ∧ (wordcountRun w "").2.jobIdGenerated = false
    ∧ (wordcountRun w "").2.localWritten = false
    ∧ (wordcountRun w "").2.dockerCpRun = false
    ∧ (wordcountRun w "").2.hdfsPutRun = false :=
  ⟨rfl, rfl, rfl, rfl, rfl⟩

/-- Claim C9: `/api/status` returns the status-and-message body when the probe
command exits 0; when the probe exits non-zero the response is HTTP 500
whose detail holds only `status` and `message` — the `stderr` field the
code builds is lost, because the `HTTPException` carrying it is caught by
the own `except Exception` clause of the handler — and a raised
`TimeoutExpired` also yields a 500 status-and-message body. -/
theorem c9_status_behavior :
    (∀ out err : String, statusRun (.completed ⟨0, out, err⟩) =
      .ok [("status", .str "running"), ("message", .str "Cluster is healthy")])
    ∧ statusRun (.completed ⟨1, "", "probe failed"⟩) =
      .error 500 [("status", .str "error"),
        ("message", .str ("500: \x7bstatus: error, message: Cluster not responding, stderr: probe failed\x7d"))]
    ∧ (statusDetail (statusRun (.completed ⟨1, "", "probe failed"⟩))).map
        Prod.fst = ["status", "message"]
    ∧ (∀ msg : String, statusRun (.raised (.other "TimeoutExpired" msg)) =
      .error 500 [("status", .str "error"), ("message", .str msg)]) :=
  ⟨fun _ _ => rfl, rfl, rfl, fun _ => rfl⟩

/-- Claim C5: every successful `POST /api/wordcount` response has `total_words`
equal to the sum of the values of `word_counts` and `unique_words` equal to
the number of its distinct keys (the keys of the collected dict are
pairwise distinct, so `len(word_counts)` is that number). -/
theorem c5_success_totals (w : World) (text jid : String)
    (d : List (String × Int)) (t : Int) (u : Nat) (ev : Events)
    (h : wordcountRun w text = (.success jid d t u, ev)) :
    t = (d.map Prod.snd).sum ∧ u = ((d.map Prod.fst).dedup).length := by
  unfold wordcountRun at h
  by_cases h1 : text = ""
  · rw [if_pos h1] at h
    simp [wcErrorOf] at h
  rw [if_neg h1] at h
  by_cases h2 : w.writeOk = false
  · rw [if_pos h2] at h
    simp [wcErrorOf] at h
  rw [if_neg h2] at h
  by_cases h3 : w.dockerCp.rc ≠ 0
  · rw [if_pos h3] at h
    simp [wcErrorOf] at h
  rw [if_neg h3] at h
  by_cases h4 : w.hdfsPut.rc ≠ 0
  · rw [if_pos h4] at h
    simp [wcErrorOf] at h
  rw [if_neg h4] at h
  by_cases h5 : w.hadoopJar.rc ≠ 0
  · rw [if_pos h5] at h
    simp [wcErrorOf] at h
  rw [if_neg h5] at h
  by_cases h6 : w.hdfsCat.rc ≠ 0
  · rw [if_pos h6] at h
    simp [wcErrorOf] at h
  rw [if_neg h6] at h
  cases heq : collectOutput w.hdfsCat.stdout with
  | error bad =>
    rw [heq] at h
    simp [finishRun, wcErrorOf] at h
  | ok d0 =>
    rw [heq] at h
    by_cases h7 : w.removeOk = false
    · simp [finishRun, wcErrorOf, h7] at h
    simp only [finishRun] at h
    rw [if_neg h7] at h
    injection h with hfst hsnd
    injection hfst with hj hd ht hu
    subst hd
    refine ⟨ht.symm, ?_⟩
    unfold collectOutput at heq
    have hnd := collect_nodupKeys (pySplitOn (pyStrip w.hdfsCat.stdout) '\n')
      [] d0 (by simp) heq
    rw [← hu, List.dedup_eq_self.2 hnd, List.length_map]

theorem c5_witness :
    (1 : Int) = ([(("hi" : String), (1 : Int))].map Prod.snd).sum
    ∧ 1 = (([(("hi" : String), (1 : Int))].map Prod.fst).dedup).length :=
  c5_success_totals c5OkWorld "hi" "job00001" [("hi", 1)] 1 1
    (mkEvents 7 true true true) (by decide)

/-- Claim C1 counterexample: when the `hadoop jar` step fails, the request exits
through the `except subprocess.CalledProcessError` clause; the local input
file was written and the distributed-filesystem input staged, yet none of
the three deletions is performed or attempted — cleanup is not on this exit
path, contradicting the claim that deletion is at least attempted on every
exit path. -/
theorem c1_counterexample :
    (wordcountRun c1FailWorld "hi").2.localWritten = true
    ∧ (wordcountRun c1FailWorld "hi").2.hdfsPutRun = true
    ∧ (wordcountRun c1FailWorld "hi").2.localRemoveAttempted = false
    ∧ (wordcountRun c1FailWorld "hi").2.rmInputAttempted = false
    ∧ (wordcountRun c1FailWorld "hi").2.rmOutputAttempted = false
    ∧ (wordcountRun c1FailWorld "hi").1 =
      .error 500 [("error", .str "Hadoop error: job failed"),
        ("returncode", .int 1)] :=
  ⟨rfl, rfl, rfl, rfl, rfl, rfl⟩

/-- Claim C1 (amended): artifact deletion is attempted only on the all-success
path — the local remove is attempted exactly when every checked pipeline
step succeeded and the output parsed, and the two distributed-filesystem
removes additionally require the local remove not to have raised; on every
failure exit no deletion is attempted. -/
theorem c1_cleanup_only_on_success (w : World) (text : String) :
    ((wordcountRun w text).2.localRemoveAttempted = true ↔ PipelineOk w text)
    ∧ ((wordcountRun w text).2.rmInputAttempted = true ↔
        (PipelineOk w text ∧ w.removeOk = true))
    ∧ ((wordcountRun w text).2.rmOutputAttempted = true ↔
        (PipelineOk w text ∧ w.removeOk = true)) := by
  unfold wordcountRun
  by_cases h1 : text = ""
  · have hnp : ¬ PipelineOk w text := fun hp => hp.1 h1
    rw [if_pos h1]
    simp [mkEvents, hnp]
  rw [if_neg h1]
  by_cases h2 : w.writeOk = false
  · have hnp : ¬ PipelineOk w text := by
      intro hp
      rw [hp.2.1] at h2
      exact Bool.noConfusion h2
    rw [if_pos h2]
    simp [mkEvents, hnp]
  rw [if_neg h2]
  by_cases h3 : w.dockerCp.rc ≠ 0
  · have hnp : ¬ PipelineOk w text := fun hp => h3 hp.2.2.1
    rw [if_pos h3]
    simp [mkEvents, hnp]
  rw [if_neg h3]
  by_cases h4 : w.hdfsPut.rc ≠ 0
  · have hnp : ¬ PipelineOk w text := fun hp => h4 hp.2.2.2.1
    rw [if_pos h4]
    simp [mkEvents, hnp]
  rw [if_neg h4]
  by_cases h5 : w.hadoopJar.rc ≠ 0
  · have hnp : ¬ PipelineOk w text := fun hp => h5 hp.2.2.2.2.1
    rw [if_pos h5]
    simp [mkEvents, hnp]
  rw [if_neg h5]
  by_cases h6 : w.hdfsCat.rc ≠ 0
  · have hnp : ¬ PipelineOk w text := fun hp => h6 hp.2.2.2.2.2.1
    rw [if_pos h6]
    simp [mkEvents, hnp]
  rw [if_neg h6]
  have h2t : w.writeOk = true := by
    revert h2
    cases w.writeOk <;> simp
  cases heq : collectOutput w.hdfsCat.stdout with
  | error bad =>
    have hnp : ¬ PipelineOk w text := by
      intro hp
      obtain ⟨d0, hd⟩ := hp.2.2.2.2.2.2
      rw [hd] at heq
      exact Except.noConfusion heq
    simp [finishRun, mkEvents, hnp]
  | ok d0 =>
    have hp : PipelineOk w text :=
      ⟨h1, h2t, not_not.1 h3, not_not.1 h4, not_not.1 h5, not_not.1 h6,
        ⟨d0, heq⟩⟩
    by_cases h7 : w.removeOk = false
    · simp [finishRun, mkEvents, hp, h7]
    · have h7t : w.removeOk = true := by
        revert h7
        cases w.removeOk <;> simp
      simp [finishRun, mkEvents, hp, h7t]

theorem c1_witness :
    ((wordcountRun c1FailWorld "hi").2.localRemoveAttempted = true ↔
      PipelineOk c1FailWorld "hi") :=
  (c1_cleanup_only_on_success c1FailWorld "hi").1

/-- Claim C8 counterexample: the `hdfs dfs -mkdir -p` staging step is run without
`check=True`, so its failure is ignored: with a failing mkdir and every
checked command succeeding, the request still runs the job and returns the
success payload — staging does not fail and the remaining stages do run. -/
theorem c8_counterexample :
    c8MkdirFailWorld.mkdirInput.rc ≠ 0
    ∧ (wordcountRun c8MkdirFailWorld "hi").1 =
      .success "job00001" [("hi", 1)] 1 1
    ∧ (wordcountRun c8MkdirFailWorld "hi").2.hadoopRun = true
    ∧ (wordcountRun c8MkdirFailWorld "hi").2.catRun = true :=
  ⟨by decide, rfl, rfl, rfl⟩

/-- Claim C8 (amended): the three staging steps that are checked — the local
write, the copy across the execution boundary, and the distributed-
filesystem upload — each abort the pipeline with an HTTP 500 carrying the
diagnostic text of the exception (for the uncaptured commands, the
command-and-exit-status string), and the job invocation and collection
stages are then never executed; only a failure of the idempotent
`mkdir -p` step is ignored. -/
theorem c8_staging_aborts (w : World) (text : String) (hne : text ≠ "") :
    (w.writeOk = false →
      (wordcountRun w text).1 =
        .error 500 [("error", .str w.writeErrMsg), ("type", .str "OSError")]
      ∧ (wordcountRun w text).2.hadoopRun = false
      ∧ (wordcountRun w text).2.catRun = false)
    ∧ (w.writeOk = true → w.dockerCp.rc ≠ 0 →
      (wordcountRun w text).1 =
        .error 500
          [("error", .str ("Hadoop error: " ++
            excStr (.calledProcess dockerCpCmd w.dockerCp.rc none none))),
           ("returncode", .int w.dockerCp.rc)]
      ∧ (wordcountRun w text).2.hadoopRun = false
      ∧ (wordcountRun w text).2.catRun = false)
    ∧ (w.writeOk = true → w.dockerCp.rc = 0 → w.hdfsPut.rc ≠ 0 →
      (wordcountRun w text).1 =
        .error 500
          [("error", .str ("Hadoop error: " ++
            excStr (.calledProcess hdfsPutCmd w.hdfsPut.rc none none))),
           ("returncode", .int w.hdfsPut.rc)]
      ∧ (wordcountRun w text).2.hadoopRun = false
      ∧ (wordcountRun w text).2.catRun = false) := by
  refine ⟨?_, ?_, ?_⟩
  · intro h2
    unfold wordcountRun
    rw [if_neg hne, if_pos h2]
    exact ⟨rfl, rfl, rfl⟩
  · intro h2 h3
    have h2n : ¬ (w.writeOk = false) := by
      rw [h2]
      simp
    unfold wordcountRun
    rw [if_neg hne, if_neg h2n, if_pos h3]
    exact ⟨rfl, rfl, rfl⟩
  · intro h2 h3 h4
    have h2n : ¬ (w.writeOk = false) := by
      rw [h2]
      simp
    have h3n : ¬ (w.dockerCp.rc ≠ 0) := not_not.2 h3
    unfold wordcountRun
    rw [if_neg hne, if_neg h2n, if_neg h3n, if_pos h4]
    exact ⟨rfl, rfl, rfl⟩

theorem c8_witness :
    ((wordcountRun c8PutFailWorld "hi").1 =
        .error 500
          [("error", .str ("Hadoop error: " ++
            excStr (.calledProcess hdfsPutCmd c8PutFailWorld.hdfsPut.rc
              none none))),
           ("returncode", .int c8PutFailWorld.hdfsPut.rc)]
      ∧ (wordcountRun c8PutFailWorld "hi").2.hadoopRun = false
      ∧ (wordcountRun c8PutFailWorld "hi").2.catRun = false) :=
  (c8_staging_aborts c8PutFailWorld "hi" (by decide)).2.2 rfl rfl (by decide)

end Cloud
